import Mathlib

/-!
Verification development for the OpsGuard scheduling backend
(`src/` of this repository).  The document store is modelled as a Lean
list of documents per collection; Mongo's `update_one(..., upsert=True)`
is modelled as the atomic first-match replace-or-append primitive
`updateOneUpsert`; `insert_one` appends; `find_one` is `List.find?`;
`find(query).sort(...)` is `filter` followed by an insertion sort.
Timestamps (`datetime.utcnow()`) are modelled as `Nat` values passed
explicitly to each operation; generated ObjectIds are passed as `String`
arguments.  Serialized HTTP responses are modelled as the JSON-shaped
type `JVal`, so that field (key) presence is a provable property.
-/

namespace OpsGuard

/-- JSON-shaped values, the model of serialized response bodies. -/
inductive JVal where
  | null
  | str (s : String)
  | bool (b : Bool)
  | num (n : Int)
  | arr (items : List JVal)
  | obj (fields : List (String × JVal))
deriving Repr

mutual

/-- All keys occurring anywhere in a JSON value (recursively). -/
def jkeys : JVal → List String
  | .null => []
  | .str _ => []
  | .bool _ => []
  | .num _ => []
  | .arr items => jkeysList items
  | .obj fields => jkeysFields fields

def jkeysFields : List (String × JVal) → List String
  | [] => []
  | (k, v) :: rest => k :: (jkeys v ++ jkeysFields rest)

def jkeysList : List JVal → List String
  | [] => []
  | v :: rest => jkeys v ++ jkeysList rest

end

/-- `None`-tolerant string field, as Python optional values serialize. -/
def optStr : Option String → JVal
  | none => .null
  | some s => .str s

/-- Outcome of a request handler: an HTTP error (status + detail, as
raised by `HTTPException`) or an unhandled exception escaping the
handler. -/
inductive HErr where
  | http (status : Nat) (detail : String)
  | exn
deriving DecidableEq, Repr

/-- A single access to the document store (used to state that
validation failures happen before any store access). -/
inductive Access where
  | read
  | write
deriving DecidableEq, Repr

-- ---------------------------------------------------------------------
-- Data model (documents as created by the code in src/)
-- ---------------------------------------------------------------------

/-- A user document.  `register` (src/routers/users.py) is the only
code path that creates user documents and it sets exactly these fields;
`update_profile` only rewrites `password_hash` and `email`.  Python
`dict.get` on keys never written (e.g. `is_admin`, `full_name`) returns
`None`, which is falsy, so those lookups are dropped from the model. -/
structure UserDoc where
  _id : String
  name : String
  email : String
  password_hash : String
  role : String
  created_at : Nat
deriving DecidableEq, Repr

/-- An availability document as written by `upsert_my_availability`. -/
structure AvailDoc where
  _id : String
  user_id : String
  user_email : Option String
  user_name : Option String
  date : String
  is_available : Bool
  start_time : Option String
  end_time : Option String
  notes : Option String
  created_at : Nat
  updated_at : Nat
deriving DecidableEq, Repr

/-- A shift document as written by `create_shift`
(src/routers/shifts.py).  `total_hours` is a numeric pass-through
(never computed with), modelled as `Int`; `guard_name` is only ever
attached transiently by the admin listing before serialization. -/
structure ShiftDoc where
  _id : String
  user_id : String
  date : String
  venue : String
  start_time : String
  end_time : String
  total_hours : Int
  notes : Option String
  paid : Bool
  created_at : Nat
  updated_at : Option Nat
  guard_name : Option String
deriving DecidableEq, Repr

/-- One embedded shift entry of a schedule: `create_schedule` copies
exactly the keys `date`, `start_time`, `end_time` from each submitted
entry (each may be absent). -/
structure ShiftEntry where
  date : Option String
  start_time : Option String
  end_time : Option String
deriving DecidableEq, Repr

/-- A schedule document as written by `create_schedule`. -/
structure ScheduleDoc where
  _id : String
  guard : String
  guard_id : Option String
  note : String
  shifts : List ShiftEntry
  created_at : Nat
  created_by_admin_id : String
deriving DecidableEq, Repr

/-- The availability submission payload (`AvailabilityIn`). -/
structure AvailabilityIn where
  date : String
  is_available : Bool
  start_time : Option String
  end_time : Option String
  notes : Option String
deriving DecidableEq, Repr

/-- The schedule creation payload: `payload.get("guard") or ""` and
`payload.get("note") or ""` make absent fields behave as `""`. -/
structure SchedulePayload where
  guard : String
  note : String
  shifts : List ShiftEntry
deriving DecidableEq, Repr

-- ---------------------------------------------------------------------
-- ObjectId validity (bson.ObjectId.is_valid on a string argument:
-- a 24-character hexadecimal string)
-- ---------------------------------------------------------------------

def isHexChar (c : Char) : Bool :=
  c.isDigit || ('a' ≤ c && c ≤ 'f') || ('A' ≤ c && c ≤ 'F')

def isValidObjectId (s : String) : Bool :=
  s.length == 24 && s.data.all isHexChar

-- ---------------------------------------------------------------------
-- datetime.strptime(s, "%Y-%m-%d"), as used for date and month
-- validation.  CPython's _strptime compiles this format to the regex
--   (?P<Y>\d\d\d\d)-(?P<m>1[0-2]|0[1-9]|[1-9])-(?P<d>3[01]|[12]\d|0[1-9]|[1-9])
-- anchored on both sides (unconverted data raises), then constructs a
-- datetime, which additionally requires 1 <= year and the day to exist
-- in the given month.  The ordered-alternation regex is deterministic
-- here: whenever a two-character month/day alternative matches, the
-- one-character fallback cannot lead to an accepting parse (the month
-- must be followed by a literal hyphen, which is never a digit, and
-- the day must be followed by end-of-input).
-- ---------------------------------------------------------------------

def digitVal (c : Char) : Nat := c.toNat - '0'.toNat

/-- Month field of the strptime regex: `1[0-2]|0[1-9]|[1-9]`. -/
def parseMonthField : List Char → Option (Nat × List Char)
  | c1 :: c2 :: rest =>
    if c1 = '1' && (c2 = '0' || c2 = '1' || c2 = '2') then
      some (10 + digitVal c2, rest)
    else if c1 = '0' && (c2.isDigit && c2 ≠ '0') then
      some (digitVal c2, rest)
    else if c1.isDigit && c1 ≠ '0' then
      some (digitVal c1, c2 :: rest)
    else
      none
  | [c1] =>
    if c1.isDigit && c1 ≠ '0' then some (digitVal c1, []) else none
  | [] => none

/-- Day field of the strptime regex: `3[01]|[12]\d|0[1-9]|[1-9]`. -/
def parseDayField : List Char → Option (Nat × List Char)
  | c1 :: c2 :: rest =>
    if c1 = '3' && (c2 = '0' || c2 = '1') then
      some (30 + digitVal c2, rest)
    else if (c1 = '1' || c1 = '2') && c2.isDigit then
      some (10 * digitVal c1 + digitVal c2, rest)
    else if c1 = '0' && (c2.isDigit && c2 ≠ '0') then
      some (digitVal c2, rest)
    else if c1.isDigit && c1 ≠ '0' then
      some (digitVal c1, c2 :: rest)
    else
      none
  | [c1] =>
    if c1.isDigit && c1 ≠ '0' then some (digitVal c1, []) else none
  | [] => none

def isLeapYear (y : Nat) : Bool :=
  y % 4 == 0 && (y % 100 != 0 || y % 400 == 0)

def daysInMonth (y m : Nat) : Nat :=
  if m = 2 then (if isLeapYear y then 29 else 28)
  else if m = 4 || m = 6 || m = 9 || m = 11 then 30
  else 31

/-- Full parse of `datetime.strptime(s, "%Y-%m-%d")`:
`some (y, m, d)` on success, `none` when a `ValueError` is raised. -/
def parseYMD (s : String) : Option (Nat × Nat × Nat) :=
  match s.data with
  | y1 :: y2 :: y3 :: y4 :: '-' :: rest =>
    if y1.isDigit && y2.isDigit && y3.isDigit && y4.isDigit then
      let y := ((digitVal y1 * 10 + digitVal y2) * 10 + digitVal y3) * 10 + digitVal y4
      match parseMonthField rest with
      | some (m, '-' :: rest2) =>
        match parseDayField rest2 with
        | some (d, []) =>
          if 1 ≤ y && d ≤ daysInMonth y m then some (y, m, d) else none
        | _ => none
      | _ => none
    else none
  | _ => none

/-- `datetime.strptime(s, "%Y-%m-%d")` succeeds. -/
def dateParses (s : String) : Bool := (parseYMD s).isSome

/-- Month validation as written in the code:
`datetime.strptime(month + "-01", "%Y-%m-%d")` succeeds. -/
def monthOk (m : String) : Bool := dateParses (m ++ "-01")

-- ---------------------------------------------------------------------
-- Python string primitives, modelled over the character list (the
-- inputs this code handles are ASCII, where these agree with Python)
-- ---------------------------------------------------------------------

/-- Whitespace stripped by Python `str.strip()` (ASCII range). -/
def isSpaceChar (c : Char) : Bool :=
  c == ' ' || c == '\t' || c == '\n' || c == '\r' || c == '\x0b' || c == '\x0c'

def dropLeadingSpace : List Char → List Char
  | [] => []
  | c :: rest => if isSpaceChar c then dropLeadingSpace rest else c :: rest

/-- Python `s.strip()`. -/
def pyStrip (s : String) : String :=
  ⟨(dropLeadingSpace (dropLeadingSpace s.data).reverse).reverse⟩

def lowerChar (c : Char) : Char :=
  if 'A' ≤ c ∧ c ≤ 'Z' then Char.ofNat (c.toNat + 32) else c

/-- Python `s.lower()`. -/
def pyLower (s : String) : String := ⟨s.data.map lowerChar⟩

/-- Python `c in s` for a single character. -/
def strContainsChar (s : String) (c : Char) : Bool :=
  s.data.any (fun x => x == c)

/-- The anchored Mongo filter `$regex ^p` on a string field (a
validated month holds only digits and hyphens, so no metacharacters). -/
def strStartsWith (p s : String) : Bool := p.data.isPrefixOf s.data

-- ---------------------------------------------------------------------
-- Sorting relations (Mongo cursor .sort is modelled by insertion sort)
-- ---------------------------------------------------------------------

/-- Codepoint-lexicographic string comparison — the order the store
uses to sort string fields (dates are ASCII, where this coincides with
UTF-8 binary order). -/
def lexLe : List Char → List Char → Bool
  | [], _ => true
  | _ :: _, [] => false
  | a :: as, b :: bs =>
    if a.toNat < b.toNat then true
    else if b.toNat < a.toNat then false
    else lexLe as bs

def strLe (a b : String) : Bool := lexLe a.data b.data

def strLt (a b : String) : Bool := !(strLe b a)

/-- `.sort("date", 1)`: ascending by the `date` string. -/
def availDateLe (a b : AvailDoc) : Prop := strLe a.date b.date = true

instance : DecidableRel availDateLe :=
  fun a b => inferInstanceAs (Decidable (strLe a.date b.date = true))

instance : IsTotal AvailDoc availDateLe := by
  constructor
  intro a b
  show lexLe a.date.data b.date.data = true ∨ lexLe b.date.data a.date.data = true
  generalize a.date.data = as
  generalize b.date.data = bs
  induction as generalizing bs with
  | nil => left; rfl
  | cons x xs ih =>
    cases bs with
    | nil => right; rfl
    | cons y ys =>
      by_cases h1 : x.toNat < y.toNat
      · left; simp [lexLe, h1]
      · by_cases h2 : y.toNat < x.toNat
        · right; simp [lexLe, h2]
        · rcases ih ys with h | h
          · left; simp [lexLe, h1, h2, h]
          · right; simp [lexLe, h1, h2, h]

instance : IsTrans AvailDoc availDateLe := by
  constructor
  intro a b c
  show lexLe a.date.data b.date.data = true →
    lexLe b.date.data c.date.data = true → lexLe a.date.data c.date.data = true
  generalize a.date.data = as
  generalize b.date.data = bs
  generalize c.date.data = cs
  induction as generalizing bs cs with
  | nil => intro _ _; rfl
  | cons x xs ih =>
    cases bs with
    | nil => intro h1; cases h1
    | cons y ys =>
      cases cs with
      | nil => intro _ h2; cases h2
      | cons z zs =>
        intro h1 h2
        simp only [lexLe] at h1 h2 ⊢
        rcases Nat.lt_trichotomy x.toNat y.toNat with hxy | hxy | hxy
        · rcases Nat.lt_trichotomy y.toNat z.toNat with hyz | hyz | hyz
          · have hxz : x.toNat < z.toNat := by omega
            simp [hxz]
          · have hxz : x.toNat < z.toNat := by omega
            simp [hxz]
          · have hn : ¬ y.toNat < z.toNat := by omega
            simp [hn, hyz] at h2
        · have hn1 : ¬ x.toNat < y.toNat := by omega
          have hn2 : ¬ y.toNat < x.toNat := by omega
          simp [hn1, hn2] at h1
          rcases Nat.lt_trichotomy y.toNat z.toNat with hyz | hyz | hyz
          · have hxz : x.toNat < z.toNat := by omega
            simp [hxz]
          · have hn3 : ¬ x.toNat < z.toNat := by omega
            have hn4 : ¬ z.toNat < x.toNat := by omega
            have hn5 : ¬ y.toNat < z.toNat := by omega
            have hn6 : ¬ z.toNat < y.toNat := by omega
            simp [hn5, hn6] at h2
            simp [hn3, hn4]
            exact ih ys zs h1 h2
          · have hn5 : ¬ y.toNat < z.toNat := by omega
            simp [hn5, hyz] at h2
        · have hn : ¬ x.toNat < y.toNat := by omega
          simp [hn, hxy] at h1

/-- Mongo's ordering on a possibly-missing string field: missing/null
sorts before every string. -/
def mongoOptLeB : Option String → Option String → Bool
  | none, _ => true
  | some _, none => false
  | some a, some b => strLe a b

/-- `.sort([("date", 1), ("user_name", 1)])`: by date, then by the
(possibly absent) `user_name`. -/
def availDateNameLeB (a b : AvailDoc) : Bool :=
  strLt a.date b.date ||
    (a.date == b.date && mongoOptLeB a.user_name b.user_name)

/-- `.sort("created_at", -1)`: newest schedules first. -/
def schedCreatedDescB (a b : ScheduleDoc) : Bool :=
  decide (b.created_at ≤ a.created_at)

-- ---------------------------------------------------------------------
-- Serializers (src/routers/*.py)
-- ---------------------------------------------------------------------

/-- Python truthiness for a string read with `.get(...) or ...`:
the empty string behaves as an absent value. -/
def pyStrOpt (s : String) : Option String := if s = "" then none else some s

/-- The user dict shape returned by register / login / `GET /me`
(id, name, email, role, created_at — `UserOut`). -/
def userOutJson (u : UserDoc) : JVal :=
  .obj [("id", .str u._id), ("name", .str u.name), ("email", .str u.email),
        ("role", .str u.role), ("created_at", .num u.created_at)]

/-- Response of `register` (src/routers/users.py): the stored email is
lowercased and the role is always "guard". -/
def registerResponse (name email newId : String) (now : Nat) : JVal :=
  .obj [("id", .str newId), ("name", .str name), ("email", .str (pyLower email)),
        ("role", .str "guard"), ("created_at", .num now)]

/-- Response of `login`: access token plus the `Token` response model
("token_type" defaults to "bearer"). -/
def loginResponse (token : String) (u : UserDoc) : JVal :=
  .obj [("access_token", .str token), ("token_type", .str "bearer"),
        ("user", userOutJson u)]

/-- Response of `GET /api/auth/me`. -/
def meResponse (u : UserDoc) : JVal := userOutJson u

/-- Response of `PUT /api/auth/profile` (final dict of
`update_profile`). -/
def profileUpdateResponse (u : UserDoc) : JVal :=
  .obj [("email", .str u.email), ("name", .str u.name)]

/-- `serialize_availability(doc, user)` from src/routers/availability.py:
user info from the caller-supplied user when present, else from the
document's denormalized fields. -/
def serialize_availability (doc : AvailDoc) (user : Option UserDoc) : JVal :=
  let user_id := match user with | some u => u._id | none => doc.user_id
  let user_name := match user with | some u => pyStrOpt u.name | none => doc.user_name
  let user_email := match user with | some u => some u.email | none => doc.user_email
  .obj [("id", .str doc._id), ("user_id", .str user_id),
        ("user_name", optStr user_name), ("user_email", optStr user_email),
        ("date", .str doc.date), ("is_available", .bool doc.is_available),
        ("start_time", optStr doc.start_time), ("end_time", optStr doc.end_time),
        ("notes", optStr doc.notes), ("created_at", .num doc.created_at),
        ("updated_at", .num doc.updated_at)]

/-- `serialize_shift(doc)` from src/routers/shifts.py; a falsy document
serializes to the empty dict. -/
def serialize_shift : Option ShiftDoc → JVal
  | none => .obj []
  | some doc =>
    .obj [("id", .str doc._id), ("user_id", .str doc.user_id),
          ("date", .str doc.date), ("venue", .str doc.venue),
          ("start_time", .str doc.start_time), ("end_time", .str doc.end_time),
          ("total_hours", .num doc.total_hours), ("notes", optStr doc.notes),
          ("paid", .bool doc.paid), ("created_at", .num doc.created_at),
          ("guard_name", optStr doc.guard_name)]

/-- One embedded shift entry of a schedule, serialized verbatim. -/
def entryJson (e : ShiftEntry) : JVal :=
  .obj [("date", optStr e.date), ("start_time", optStr e.start_time),
        ("end_time", optStr e.end_time)]

/-- `serialize_schedule(doc)` from src/routers/schedules.py. -/
def serialize_schedule (doc : ScheduleDoc) : JVal :=
  .obj [("id", .str doc._id), ("guard", .str doc.guard),
        ("guard_id", optStr doc.guard_id), ("note", .str doc.note),
        ("shifts", .arr (doc.shifts.map entryJson)),
        ("created_at", .num doc.created_at),
        ("created_by_admin_id", .str doc.created_by_admin_id)]

-- ---------------------------------------------------------------------
-- Authentication (src/deps.py).  `decode_token` (src/auth.py) returns
-- the claims dict, or None on any JWTError — malformed token, bad
-- signature and expired token are indistinguishable at this interface.
-- `ObjectId(user_id)` raises (an unhandled 500) on a malformed id.
-- ---------------------------------------------------------------------

inductive AuthResult where
  | ok (u : UserDoc)
  | unauthorized (detail : String)
  | serverError
deriving DecidableEq, Repr

def authStatus : AuthResult → Nat
  | .ok _ => 200
  | .unauthorized _ => 401
  | .serverError => 500

/-- `get_current_user` from src/deps.py, over the already-decoded token
payload (an association list, `None` when decoding failed). -/
def get_current_user (decoded : Option (List (String × String)))
    (users : List UserDoc) : AuthResult :=
  match decoded with
  | none => .unauthorized "Invalid token"
  | some payload =>
    match payload.lookup "sub" with
    | none => .unauthorized "Invalid token"
    | some sub =>
      if isValidObjectId sub then
        match users.find? (fun u => u._id == sub) with
        | none => .unauthorized "User not found"
        | some u => .ok u
      else .serverError

-- ---------------------------------------------------------------------
-- Identity resolution (duplicated verbatim in
-- src/routers/availability.py `admin_get_for_guard` and
-- src/routers/schedules.py `create_schedule`): exact name match first,
-- then, only if the reference contains "@", exact match on the
-- lowercased reference against the stored email.
-- ---------------------------------------------------------------------

def resolveByNameThenEmail (users : List UserDoc) (g : String) : Option UserDoc :=
  match users.find? (fun u => u.name == g) with
  | some u => some u
  | none =>
    if strContainsChar g '@' then users.find? (fun u => u.email == pyLower g) else none

-- ---------------------------------------------------------------------
-- Availability endpoints (src/routers/availability.py)
-- ---------------------------------------------------------------------

def availKeyMatches (uid d : String) (a : AvailDoc) : Bool :=
  a.user_id == uid && a.date == d

/-- Mongo's atomic `update_one(query, update, upsert=True)` for the
availability collection: replace the first document matching the
`(user_id, date)` query using the `$set` document, or append the
insert document when none matches.  This is a single store primitive;
the handler issues exactly one such call. -/
def updateOneUpsert (uid d : String) (upd : AvailDoc → AvailDoc) (ins : AvailDoc) :
    List AvailDoc → List AvailDoc
  | [] => [ins]
  | a :: rest =>
    if availKeyMatches uid d a then upd a :: rest
    else a :: updateOneUpsert uid d upd ins rest

/-- The `$set` document of the upsert: overwrites every mutable field
and `updated_at`, leaving `_id` and `created_at` untouched. -/
def availSet (p : AvailabilityIn) (u : UserDoc) (now : Nat) (a : AvailDoc) : AvailDoc :=
  { a with user_id := u._id, user_email := some u.email, user_name := pyStrOpt u.name,
           date := p.date, is_available := p.is_available, start_time := p.start_time,
           end_time := p.end_time, notes := p.notes, updated_at := now }

/-- The document created on upsert-insert: the `$set` fields plus the
`$setOnInsert` `created_at` and a fresh id. -/
def availInsert (p : AvailabilityIn) (u : UserDoc) (now : Nat) (newId : String) : AvailDoc :=
  { _id := newId, user_id := u._id, user_email := some u.email,
    user_name := pyStrOpt u.name, date := p.date, is_available := p.is_available,
    start_time := p.start_time, end_time := p.end_time, notes := p.notes,
    created_at := now, updated_at := now }

/-- `POST /api/availability` (`upsert_my_availability`): validate the
date, one atomic upsert (write), one `find_one` (read), serialize.
The access trace records each store access in order. -/
def upsert_my_availability (p : AvailabilityIn) (u : UserDoc) (now : Nat)
    (newId : String) (avail : List AvailDoc) :
    Except HErr JVal × List AvailDoc × List Access :=
  if dateParses p.date then
    let s := updateOneUpsert u._id p.date (availSet p u now) (availInsert p u now newId) avail
    match s.find? (availKeyMatches u._id p.date) with
    | some doc => (.ok (serialize_availability doc (some u)), s, [.write, .read])
    | none => (.error .exn, s, [.write, .read])
  else
    (.error (.http 400 "date must be in YYYY-MM-DD format"), avail, [])

/-- `GET /api/availability/me` (`get_my_availability_for_month`):
validate the month, then one filtered query sorted by date ascending.
The `$regex ^month` filter is an anchored prefix match (a validated
month contains only digits and hyphens, so no regex metacharacters). -/
def get_my_availability_for_month (month : String) (u : UserDoc)
    (avail : List AvailDoc) :
    Except HErr (List JVal) × List AvailDoc × List Access :=
  if monthOk month then
    let docs := List.insertionSort availDateLe
      (avail.filter (fun a => a.user_id == u._id && strStartsWith month a.date))
    (.ok (docs.map (fun d => serialize_availability d (some u))), avail, [.read])
  else
    (.error (.http 400 "month must be in YYYY-MM format"), avail, [])

/-- `GET /api/availability` (`admin_get_all_for_month`): system-wide
month listing, sorted by `(date, user_name)`, serialized without a
resolved user. -/
def admin_get_all_for_month (month : String) (avail : List AvailDoc) :
    Except HErr (List JVal) × List AvailDoc × List Access :=
  if monthOk month then
    let docs := List.insertionSort (fun a b => availDateNameLeB a b = true)
      (avail.filter (fun a => strStartsWith month a.date))
    (.ok (docs.map (fun d => serialize_availability d none)), avail, [.read])
  else
    (.error (.http 400 "month must be in YYYY-MM format"), avail, [])

/-- `GET /api/availability/admin` (`admin_get_for_guard`): strip the
reference, reject blank; resolve by name then email; an unresolved
reference yields an empty success result; the month filter is only
validated when a user was resolved (as in the code, where the check
sits after the early `return []`). -/
def admin_get_for_guard (guard : String) (month : Option String)
    (users : List UserDoc) (avail : List AvailDoc) : Except HErr (List JVal) :=
  let g := pyStrip guard
  if g = "" then .error (.http 400 "guard parameter is required")
  else
    match resolveByNameThenEmail users g with
    | none => .ok []
    | some user =>
      match month with
      | some m =>
        if monthOk m then
          .ok ((List.insertionSort availDateLe
            (avail.filter (fun a => a.user_id == user._id && strStartsWith m a.date))).map
              (fun d => serialize_availability d (some user)))
        else .error (.http 400 "month must be in YYYY-MM format")
      | none =>
        .ok ((List.insertionSort availDateLe
          (avail.filter (fun a => a.user_id == user._id))).map
            (fun d => serialize_availability d (some user)))

-- ---------------------------------------------------------------------
-- Schedule endpoints (src/routers/schedules.py)
-- ---------------------------------------------------------------------

/-- `POST /api/schedules` (`create_schedule`): require a non-blank
guard reference and a non-empty shift list; resolve best-effort (the
binding may be absent); copy exactly date/start_time/end_time from each
submitted entry; insert. -/
def create_schedule (payload : SchedulePayload) (admin : UserDoc)
    (users : List UserDoc) (now : Nat) (newId : String)
    (schedules : List ScheduleDoc) : Except HErr JVal × List ScheduleDoc :=
  let guard := pyStrip payload.guard
  let note := pyStrip payload.note
  let shifts := payload.shifts
  if guard = "" then (.error (.http 400 "Guard is required"), schedules)
  else if shifts.isEmpty then
    (.error (.http 400 "At least one shift is required"), schedules)
  else
    let guard_user := resolveByNameThenEmail users guard
    let guard_id := guard_user.map (fun u => u._id)
    let clean_shifts := shifts.map (fun s => ShiftEntry.mk s.date s.start_time s.end_time)
    let doc : ScheduleDoc :=
      { _id := newId, guard := guard, guard_id := guard_id, note := note,
        shifts := clean_shifts, created_at := now, created_by_admin_id := admin._id }
    (.ok (serialize_schedule doc), schedules ++ [doc])

/-- The single disjunctive `$or` query of `get_my_schedules`: id match,
or name match (clause present only for a non-blank name), or email
match (clause present only for a non-blank email). -/
def schedMatches (user_id name email : String) (d : ScheduleDoc) : Bool :=
  d.guard_id == some user_id || (name != "" && d.guard == name) ||
    (email != "" && d.guard == email)

/-- `GET /api/schedules/me` (`get_my_schedules`): one disjunctive query
over the schedules collection, newest first. -/
def get_my_schedules (u : UserDoc) (schedules : List ScheduleDoc) : List JVal :=
  let user_id := u._id
  let name := pyStrip u.name
  let email := pyStrip (pyLower u.email)
  (List.insertionSort (fun a b => schedCreatedDescB a b = true)
    (schedules.filter (schedMatches user_id name email))).map serialize_schedule

-- ---------------------------------------------------------------------
-- Shift endpoints (src/routers/shifts.py)
-- ---------------------------------------------------------------------

/-- Mongo `update_one({_id}, {$set: {paid, updated_at}})`: update the
first matching document only; also report the matched count. -/
def updateFirstPaid (oid : String) (p : Bool) (now : Nat) :
    List ShiftDoc → List ShiftDoc × Nat
  | [] => ([], 0)
  | sh :: rest =>
    if sh._id == oid then ({ sh with paid := p, updated_at := some now } :: rest, 1)
    else
      let r := updateFirstPaid oid p now rest
      (sh :: r.1, r.2)

/-- `POST /api/shifts/{shift_id}/paid` (`set_shift_paid`): reject a
malformed ObjectId, run the targeted update, 404 when nothing matched,
then re-fetch and serialize. -/
def set_shift_paid (shift_id : String) (p : Bool) (now : Nat)
    (shifts : List ShiftDoc) : Except HErr JVal × List ShiftDoc :=
  if isValidObjectId shift_id then
    let r := updateFirstPaid shift_id p now shifts
    if r.2 = 0 then (.error (.http 404 "Shift not found"), r.1)
    else (.ok (serialize_shift (r.1.find? (fun sh => sh._id == shift_id))), r.1)
  else (.error (.http 400 "Invalid shift id"), shifts)

/-- Mongo `delete_one({_id})`: remove the first matching document. -/
def deleteOneShift (oid : String) : List ShiftDoc → List ShiftDoc
  | [] => []
  | sh :: rest => if sh._id == oid then rest else sh :: deleteOneShift oid rest

/-- `DELETE /api/shifts/{shift_id}` (`delete_shift`): malformed id →
400; absent record → 404; then owner-or-admin authorization.  User
documents are created only by `register`, which never writes the
`is_admin`/`admin` keys the code also probes, so on this data model the
admin check is `role == "admin"`. -/
def delete_shift (shift_id : String) (user : UserDoc)
    (shifts : List ShiftDoc) : Except HErr JVal × List ShiftDoc :=
  if isValidObjectId shift_id then
    match shifts.find? (fun sh => sh._id == shift_id) with
    | none => (.error (.http 404 "Shift not found"), shifts)
    | some doc =>
      let is_admin := user.role == "admin"
      if !is_admin && doc.user_id != user._id then
        (.error (.http 403 "Not allowed"), shifts)
      else
        (.ok (.obj [("status", .str "deleted"), ("id", .str shift_id)]),
         deleteOneShift shift_id shifts)
  else (.error (.http 400 "Invalid shift id"), shifts)

/-- Remove the first availability document with the given id. -/
def deleteOneAvail (oid : String) : List AvailDoc → List AvailDoc
  | [] => []
  | a :: rest => if a._id == oid then rest else a :: deleteOneAvail oid rest

/-- Modelled from the spec: the availability delete endpoint is absent
from src/ (src/routers/availability.py defines no delete route); §6 of
the spec specifies "Delete availability — owner or admin — non-owner
non-admin forbidden" with not-found for an absent record, mirroring the
shift delete.  Allowed iff the caller's role is admin or the caller's
identifier equals the record's stored owner identifier. -/
def delete_availability (avail_id : String) (user : UserDoc)
    (avail : List AvailDoc) : Except HErr JVal × List AvailDoc :=
  match avail.find? (fun a => a._id == avail_id) with
  | none => (.error (.http 404 "Availability not found"), avail)
  | some doc =>
    if user.role == "admin" || doc.user_id == user._id then
      (.ok (.obj [("status", .str "deleted"), ("id", .str avail_id)]),
       deleteOneAvail avail_id avail)
    else (.error (.http 403 "Not allowed"), avail)

-- ---------------------------------------------------------------------
-- Iterated upserts (for the key-uniqueness invariant)
-- ---------------------------------------------------------------------

/-- One availability submission: payload, authenticated user, wall
clock, and the id a fresh insert would receive. -/
structure UpsertArgs where
  p : AvailabilityIn
  u : UserDoc
  now : Nat
  newId : String
deriving Repr

/-- The store effect of one `upsert_my_availability` request. -/
def upsertStep (s : List AvailDoc) (a : UpsertArgs) : List AvailDoc :=
  (upsert_my_availability a.p a.u a.now a.newId s).2.1

def keyOf (a : AvailDoc) : String × String := (a.user_id, a.date)

/-- Key uniqueness: no two availability documents share a
`(user_id, date)` key. -/
def availUnique (s : List AvailDoc) : Prop :=
  s.Pairwise (fun a b => keyOf a ≠ keyOf b)

instance (s : List AvailDoc) : Decidable (availUnique s) :=
  inferInstanceAs (Decidable (s.Pairwise _))

/-- Number of stored availability documents with the given key. -/
def countKey (s : List AvailDoc) (uid d : String) : Nat :=
  (s.filter (availKeyMatches uid d)).length

-- ---------------------------------------------------------------------
-- Statement-side helpers
-- ---------------------------------------------------------------------

/-- An optional month filter passes validation when absent or
well-formed. -/
def monthPasses : Option String → Prop
  | none => True
  | some m => monthOk m = true

instance : (m : Option String) → Decidable (monthPasses m)
  | none => .isTrue trivial
  | some m => inferInstanceAs (Decidable (monthOk m = true))

/-- The document filter that the optional month adds to an availability
query: an anchored prefix match on the date string. -/
def monthFilter : Option String → AvailDoc → Bool
  | none, _ => true
  | some m, a => strStartsWith m a.date

-- ---------------------------------------------------------------------
-- Concrete fixtures (used by witnesses, counterexamples and the
-- concrete-input claims)
-- ---------------------------------------------------------------------

def guardA : UserDoc :=
  { _id := "aaaaaaaaaaaaaaaaaaaaaaaa", name := "Jane Doe", email := "jane@x.com",
    password_hash := "h1", role := "guard", created_at := 0 }

def guardB : UserDoc :=
  { _id := "bbbbbbbbbbbbbbbbbbbbbbbb", name := "Big Papi", email := "papi@x.com",
    password_hash := "h2", role := "guard", created_at := 1 }

def adminC : UserDoc :=
  { _id := "cccccccccccccccccccccccc", name := "Root", email := "root@x.com",
    password_hash := "h3", role := "admin", created_at := 2 }

def mkAvail (id uid date : String) : AvailDoc :=
  { _id := id, user_id := uid, user_email := none, user_name := none,
    date := date, is_available := true, start_time := none, end_time := none,
    notes := none, created_at := 0, updated_at := 0 }

def availJan : AvailDoc := mkAvail "e1" "aaaaaaaaaaaaaaaaaaaaaaaa" "2025-01-05"

def availOct : AvailDoc := mkAvail "e2" "aaaaaaaaaaaaaaaaaaaaaaaa" "2025-10-06"

def availNov : AvailDoc := mkAvail "e3" "aaaaaaaaaaaaaaaaaaaaaaaa" "2025-11-07"

def availDec : AvailDoc := mkAvail "e4" "aaaaaaaaaaaaaaaaaaaaaaaa" "2025-12-08"

def availFeb : AvailDoc := mkAvail "e5" "aaaaaaaaaaaaaaaaaaaaaaaa" "2025-02-05"

/-- A January record stored with the non-zero-padded date string that
this code's validation accepts verbatim. -/
def availJanNP : AvailDoc := mkAvail "e6" "aaaaaaaaaaaaaaaaaaaaaaaa" "2025-1-05"

/-- A store holding one availability per month of interest, in
scrambled insertion order. -/
def monthStore : List AvailDoc :=
  [availDec, availFeb, availJanNP, availJan, availNov, availOct]

def shiftA : ShiftDoc :=
  { _id := "dddddddddddddddddddddddd", user_id := "aaaaaaaaaaaaaaaaaaaaaaaa",
    date := "2025-11-27", venue := "Club", start_time := "9:00 PM",
    end_time := "5:00 AM", total_hours := 8, notes := none, paid := false,
    created_at := 0, updated_at := none, guard_name := none }

def availOwnedA : AvailDoc :=
  mkAvail "ffffffffffffffffffffffff" "aaaaaaaaaaaaaaaaaaaaaaaa" "2025-11-27"

def payloadNov : AvailabilityIn :=
  { date := "2025-11-27", is_available := true, start_time := some "9:00 PM",
    end_time := some "5:00 AM", notes := none }

def payloadNov2 : AvailabilityIn :=
  { date := "2025-11-27", is_available := false, start_time := none,
    end_time := none, notes := some "resubmitted" }

def payloadBadDate : AvailabilityIn :=
  { date := "2025-13-05", is_available := true, start_time := none,
    end_time := none, notes := none }

def schedEntryNov : ShiftEntry :=
  { date := some "2025-11-27", start_time := some "9:00 PM",
    end_time := some "5:00 AM" }

def schedPayloadPapi : SchedulePayload :=
  { guard := "Big Papi", note := "", shifts := [schedEntryNov] }

def schedPayloadBlank : SchedulePayload :=
  { guard := " ", note := "", shifts := [schedEntryNov] }

-- =====================================================================
-- Lemmas and claim theorems
-- =====================================================================

theorem jkeys_optStr (o : Option String) : jkeys (optStr o) = [] := by
  cases o <;> rfl

theorem jkeys_null : jkeys .null = [] := rfl

theorem jkeys_str (s : String) : jkeys (.str s) = [] := rfl

theorem jkeys_bool (b : Bool) : jkeys (.bool b) = [] := rfl

theorem jkeys_num (n : Int) : jkeys (.num n) = [] := rfl

theorem jkeys_arr (items : List JVal) : jkeys (.arr items) = jkeysList items := rfl

theorem jkeys_obj (fields : List (String × JVal)) :
    jkeys (.obj fields) = jkeysFields fields := rfl

theorem jkeysFields_nil : jkeysFields [] = [] := rfl

theorem jkeysFields_cons (k : String) (v : JVal) (rest : List (String × JVal)) :
    jkeysFields ((k, v) :: rest) = k :: (jkeys v ++ jkeysFields rest) := rfl

theorem jkeysList_nil : jkeysList [] = [] := rfl

theorem jkeysList_cons (v : JVal) (rest : List JVal) :
    jkeysList (v :: rest) = jkeys v ++ jkeysList rest := rfl

theorem jkeys_serialize_availability (doc : AvailDoc) (user : Option UserDoc) :
    jkeys (serialize_availability doc user) =
      ["id", "user_id", "user_name", "user_email", "date", "is_available",
       "start_time", "end_time", "notes", "created_at", "updated_at"] := by
  cases user <;>
    simp [serialize_availability, jkeys_obj, jkeysFields_cons, jkeysFields_nil,
      jkeys_str, jkeys_num, jkeys_bool, jkeys_optStr]

theorem jkeys_serialize_shift (sh : Option ShiftDoc) :
    jkeys (serialize_shift sh) = [] ∨
      jkeys (serialize_shift sh) =
        ["id", "user_id", "date", "venue", "start_time", "end_time",
         "total_hours", "notes", "paid", "created_at", "guard_name"] := by
  cases sh with
  | none => left; rfl
  | some doc =>
    right
    simp [serialize_shift, jkeys_obj, jkeysFields_cons, jkeysFields_nil,
      jkeys_str, jkeys_num, jkeys_bool, jkeys_optStr]

theorem jkeys_entryJson (e : ShiftEntry) :
    jkeys (entryJson e) = ["date", "start_time", "end_time"] := by
  simp [entryJson, jkeys_obj, jkeysFields_cons, jkeysFields_nil, jkeys_optStr]

theorem pwhash_not_mem_jkeysList_entries (es : List ShiftEntry) :
    "password_hash" ∉ jkeysList (es.map entryJson) := by
  induction es with
  | nil => simp [jkeysList_nil]
  | cons e rest ih =>
    simp [jkeysList_cons, jkeys_entryJson, ih]

theorem jkeys_serialize_schedule (sd : ScheduleDoc) :
    "password_hash" ∉ jkeys (serialize_schedule sd) := by
  simp [serialize_schedule, jkeys_obj, jkeysFields_cons, jkeysFields_nil,
    jkeys_str, jkeys_num, jkeys_arr, jkeys_optStr,
    pwhash_not_mem_jkeysList_entries]

/-- Claim C8: no serialized response of register, login,
current-identity, profile update, availability, shift or schedule
serialization contains the password digest field (named
`password_hash` in this repository's documents), for any stored
document and any viewer context. -/
theorem no_password_digest_in_responses
    (name email newId token : String) (now : Nat) (u : UserDoc)
    (doc : AvailDoc) (viewer : Option UserDoc) (sh : Option ShiftDoc)
    (sd : ScheduleDoc) :
    "password_hash" ∉ jkeys (registerResponse name email newId now) ∧
    "password_hash" ∉ jkeys (loginResponse token u) ∧
    "password_hash" ∉ jkeys (meResponse u) ∧
    "password_hash" ∉ jkeys (profileUpdateResponse u) ∧
    "password_hash" ∉ jkeys (serialize_availability doc viewer) ∧
    "password_hash" ∉ jkeys (serialize_shift sh) ∧
    "password_hash" ∉ jkeys (serialize_schedule sd) := by
  refine ⟨?_, ?_, ?_, ?_, ?_, ?_, ?_⟩
  · simp [registerResponse, jkeys, jkeysFields]
  · simp [loginResponse, userOutJson, jkeys, jkeysFields]
  · simp [meResponse, userOutJson, jkeys, jkeysFields]
  · simp [profileUpdateResponse, jkeys, jkeysFields]
  · rw [jkeys_serialize_availability]; decide
  · rcases jkeys_serialize_shift sh with h | h <;> rw [h] <;> decide
  · exact jkeys_serialize_schedule sd

-- ---------------------------------------------------------------------
-- Upsert lemmas (claims C1 and C2)
-- ---------------------------------------------------------------------

theorem availKeyMatches_iff (uid d : String) (a : AvailDoc) :
    availKeyMatches uid d a = true ↔ keyOf a = (uid, d) := by
  simp [availKeyMatches, keyOf, Prod.ext_iff]

theorem availKeyMatches_availSet (p : AvailabilityIn) (u : UserDoc) (now : Nat)
    (a : AvailDoc) : availKeyMatches u._id p.date (availSet p u now a) = true := by
  simp [availKeyMatches, availSet]

theorem availKeyMatches_availInsert (p : AvailabilityIn) (u : UserDoc)
    (now : Nat) (newId : String) :
    availKeyMatches u._id p.date (availInsert p u now newId) = true := by
  simp [availKeyMatches, availInsert]

theorem find?_updateOneUpsert (uid d : String) (upd : AvailDoc → AvailDoc)
    (ins : AvailDoc) (s : List AvailDoc)
    (hupd : ∀ a, availKeyMatches uid d a = true →
      availKeyMatches uid d (upd a) = true)
    (hins : availKeyMatches uid d ins = true) :
    (updateOneUpsert uid d upd ins s).find? (availKeyMatches uid d) =
      some (match s.find? (availKeyMatches uid d) with
            | some a => upd a
            | none => ins) := by
  induction s with
  | nil =>
    simp [updateOneUpsert, List.find?, hins]
  | cons a rest ih =>
    by_cases hm : availKeyMatches uid d a = true
    · simp only [updateOneUpsert, if_pos hm]
      rw [List.find?_cons_of_pos _ (hupd a hm), List.find?_cons_of_pos _ hm]
    · simp only [updateOneUpsert, if_neg hm]
      rw [List.find?_cons_of_neg _ hm, List.find?_cons_of_neg _ hm, ih]

theorem mem_updateOneUpsert (uid d : String) (upd : AvailDoc → AvailDoc)
    (ins : AvailDoc) (s : List AvailDoc)
    (hupd : ∀ a, keyOf (upd a) = (uid, d)) (hins : keyOf ins = (uid, d)) :
    ∀ b ∈ updateOneUpsert uid d upd ins s, keyOf b = (uid, d) ∨ b ∈ s := by
  induction s with
  | nil =>
    intro b hb
    simp only [updateOneUpsert, List.mem_singleton] at hb
    left; rw [hb]; exact hins
  | cons a rest ih =>
    intro b hb
    by_cases hm : availKeyMatches uid d a = true
    · simp only [updateOneUpsert, if_pos hm] at hb
      rcases List.mem_cons.mp hb with h | h
      · left; rw [h]; exact hupd a
      · right; exact List.mem_cons_of_mem _ h
    · simp only [updateOneUpsert, if_neg hm] at hb
      rcases List.mem_cons.mp hb with h | h
      · right; rw [h]; exact List.mem_cons_self _ _
      · rcases ih b h with h2 | h2
        · left; exact h2
        · right; exact List.mem_cons_of_mem _ h2

theorem availUnique_updateOneUpsert (uid d : String) (upd : AvailDoc → AvailDoc)
    (ins : AvailDoc) (s : List AvailDoc)
    (hupd : ∀ a, keyOf (upd a) = (uid, d)) (hins : keyOf ins = (uid, d))
    (h : availUnique s) : availUnique (updateOneUpsert uid d upd ins s) := by
  induction s with
  | nil =>
    simp [updateOneUpsert, availUnique]
  | cons a rest ih =>
    rw [availUnique, List.pairwise_cons] at h
    by_cases hm : availKeyMatches uid d a = true
    · rw [availUnique]
      simp only [updateOneUpsert, if_pos hm]
      rw [List.pairwise_cons]
      refine ⟨fun b hb => ?_, h.2⟩
      have hka : keyOf a = (uid, d) := (availKeyMatches_iff uid d a).mp hm
      rw [hupd a, ← hka]
      exact h.1 b hb
    · rw [availUnique]
      simp only [updateOneUpsert, if_neg hm]
      rw [List.pairwise_cons]
      refine ⟨fun b hb => ?_, ih h.2⟩
      rcases mem_updateOneUpsert uid d upd ins rest hupd hins b hb with hk | hmem
      · rw [hk]
        intro heq
        exact hm ((availKeyMatches_iff uid d a).mpr heq)
      · exact h.1 b hmem

theorem countKey_le_one_of_availUnique (s : List AvailDoc) (h : availUnique s)
    (uid d : String) : countKey s uid d ≤ 1 := by
  induction s with
  | nil => simp [countKey]
  | cons a rest ih =>
    rw [availUnique, List.pairwise_cons] at h
    by_cases hm : availKeyMatches uid d a = true
    · rw [countKey, List.filter_cons_of_pos hm]
      simp only [List.length_cons]
      have hzero : (rest.filter (availKeyMatches uid d)).length = 0 := by
        rw [List.length_eq_zero, List.filter_eq_nil_iff]
        intro b hb hbm
        have hka := (availKeyMatches_iff uid d a).mp hm
        have hkb := (availKeyMatches_iff uid d b).mp hbm
        exact h.1 b hb (hka.trans hkb.symm)
      omega
    · rw [countKey, List.filter_cons_of_neg hm]
      exact ih h.2

theorem countKey_pos_of_find? (s : List AvailDoc) (uid d : String) (x : AvailDoc)
    (h : s.find? (availKeyMatches uid d) = some x) : 1 ≤ countKey s uid d := by
  have hmem : x ∈ s := List.mem_of_find?_eq_some h
  have hpx : availKeyMatches uid d x = true := List.find?_some h
  rw [countKey]
  exact List.length_pos_of_mem (List.mem_filter.mpr ⟨hmem, hpx⟩)

theorem upsert_store_eq (p : AvailabilityIn) (u : UserDoc) (now : Nat)
    (newId : String) (s : List AvailDoc) (hd : dateParses p.date = true) :
    (upsert_my_availability p u now newId s).2.1 =
      updateOneUpsert u._id p.date (availSet p u now)
        (availInsert p u now newId) s := by
  simp only [upsert_my_availability, hd, if_true]
  split <;> rfl

theorem upsert_store_eq_of_invalid (p : AvailabilityIn) (u : UserDoc) (now : Nat)
    (newId : String) (s : List AvailDoc) (hd : ¬ dateParses p.date = true) :
    (upsert_my_availability p u now newId s).2.1 = s := by
  simp only [upsert_my_availability, if_neg hd]

theorem availUnique_upsertStep (s : List AvailDoc) (a : UpsertArgs)
    (h : availUnique s) : availUnique (upsertStep s a) := by
  rw [upsertStep]
  by_cases hd : dateParses a.p.date = true
  · rw [upsert_store_eq a.p a.u a.now a.newId s hd]
    exact availUnique_updateOneUpsert _ _ _ _ s (fun _ => rfl) rfl h
  · rw [upsert_store_eq_of_invalid a.p a.u a.now a.newId s hd]
    exact h

/-- Claim C1: after any sequence of availability upsert operations,
starting from a store whose `(user_id, date)` keys are unique (e.g. the
empty store), key uniqueness is preserved and every `(user_id, date)`
key has at most one availability record.  Each request performs its
write as one call to the store's atomic find-and-replace-or-insert
primitive `updateOneUpsert` (the model of
`update_one(query, update, upsert=True)`), not as separate
read-then-write steps, so any interleaving of concurrent requests is a
sequence of these atomic steps. -/
theorem upsert_key_uniqueness (ops : List UpsertArgs) (s : List AvailDoc)
    (h : availUnique s) :
    availUnique (ops.foldl upsertStep s) ∧
      ∀ uid d, countKey (ops.foldl upsertStep s) uid d ≤ 1 := by
  have main : availUnique (ops.foldl upsertStep s) := by
    induction ops generalizing s with
    | nil => exact h
    | cons op rest ih => exact ih _ (availUnique_upsertStep s op h)
  exact ⟨main, fun uid d => countKey_le_one_of_availUnique _ main uid d⟩

theorem upsert_key_uniqueness_witness :
    countKey (List.foldl upsertStep []
        [⟨payloadNov, guardA, 5, "a1"⟩, ⟨payloadNov2, guardA, 6, "a2"⟩])
      guardA._id "2025-11-27" ≤ 1 :=
  (upsert_key_uniqueness
    [⟨payloadNov, guardA, 5, "a1"⟩, ⟨payloadNov2, guardA, 6, "a2"⟩]
    [] List.Pairwise.nil).2 guardA._id "2025-11-27"

theorem availSet_availSet (p : AvailabilityIn) (u : UserDoc) (t1 t2 : Nat)
    (a : AvailDoc) :
    availSet p u t2 (availSet p u t1 a) =
      { availSet p u t1 a with updated_at := t2 } := rfl

theorem availSet_availInsert (p : AvailabilityIn) (u : UserDoc) (t1 t2 : Nat)
    (newId : String) :
    availSet p u t2 (availInsert p u t1 newId) =
      { availInsert p u t1 newId with updated_at := t2 } := rfl

/-- Claim C2: when a record already exists for the `(user_id, date)`
key, the upsert overwrites all mutable fields with the submitted
values, sets `updated_at` to the current time and preserves the
original `created_at` and id; consequently submitting the identical
payload twice yields exactly one stored record for the key whose state
equals the single-submission result except for `updated_at`, with
`created_at` unchanged. -/
theorem upsert_overwrite_idempotence (p : AvailabilityIn) (u : UserDoc)
    (t1 t2 : Nat) (id1 id2 : String) (s : List AvailDoc)
    (hd : dateParses p.date = true) (hs : availUnique s) :
    (∀ old, s.find? (availKeyMatches u._id p.date) = some old →
      (upsert_my_availability p u t1 id1 s).2.1.find?
          (availKeyMatches u._id p.date) =
        some { old with
                 user_id := u._id, user_email := some u.email,
                 user_name := pyStrOpt u.name, date := p.date,
                 is_available := p.is_available, start_time := p.start_time,
                 end_time := p.end_time, notes := p.notes, updated_at := t1 }) ∧
    (∃ d1 d2 : AvailDoc,
      (upsert_my_availability p u t1 id1 s).2.1.find?
          (availKeyMatches u._id p.date) = some d1 ∧
      (upsert_my_availability p u t2 id2
          (upsert_my_availability p u t1 id1 s).2.1).2.1.find?
          (availKeyMatches u._id p.date) = some d2 ∧
      countKey (upsert_my_availability p u t2 id2
          (upsert_my_availability p u t1 id1 s).2.1).2.1 u._id p.date = 1 ∧
      d2 = { d1 with updated_at := t2 } ∧
      d2.created_at = d1.created_at) := by
  have hupd1 : ∀ a, availKeyMatches u._id p.date a = true →
      availKeyMatches u._id p.date (availSet p u t1 a) = true :=
    fun a _ => availKeyMatches_availSet p u t1 a
  have hupd2 : ∀ a, availKeyMatches u._id p.date a = true →
      availKeyMatches u._id p.date (availSet p u t2 a) = true :=
    fun a _ => availKeyMatches_availSet p u t2 a
  have hs1 : availUnique (upsert_my_availability p u t1 id1 s).2.1 :=
    availUnique_upsertStep s ⟨p, u, t1, id1⟩ hs
  have hs2 : availUnique (upsert_my_availability p u t2 id2
      (upsert_my_availability p u t1 id1 s).2.1).2.1 :=
    availUnique_upsertStep _ ⟨p, u, t2, id2⟩ hs1
  constructor
  · intro old hold
    rw [upsert_store_eq p u t1 id1 s hd,
      find?_updateOneUpsert _ _ _ _ _ hupd1 (availKeyMatches_availInsert p u t1 id1),
      hold]
    rfl
  · have hfind1 : (upsert_my_availability p u t1 id1 s).2.1.find?
        (availKeyMatches u._id p.date) =
        some (match s.find? (availKeyMatches u._id p.date) with
              | some a => availSet p u t1 a
              | none => availInsert p u t1 id1) := by
      rw [upsert_store_eq p u t1 id1 s hd]
      exact find?_updateOneUpsert _ _ _ _ _ hupd1
        (availKeyMatches_availInsert p u t1 id1)
    rcases h0 : s.find? (availKeyMatches u._id p.date) with _ | old
    · rw [h0] at hfind1
      refine ⟨availInsert p u t1 id1, availSet p u t2 (availInsert p u t1 id1),
        hfind1, ?_, ?_, availSet_availInsert p u t1 t2 id1, rfl⟩
      · rw [upsert_store_eq p u t2 id2 _ hd,
          find?_updateOneUpsert _ _ _ _ _ hupd2
            (availKeyMatches_availInsert p u t2 id2), hfind1]
      · have hge : 1 ≤ countKey (upsert_my_availability p u t2 id2
            (upsert_my_availability p u t1 id1 s).2.1).2.1 u._id p.date := by
          refine countKey_pos_of_find? _ _ _ (availSet p u t2 (availInsert p u t1 id1)) ?_
          rw [upsert_store_eq p u t2 id2 _ hd,
            find?_updateOneUpsert _ _ _ _ _ hupd2
              (availKeyMatches_availInsert p u t2 id2), hfind1]
        have hle := countKey_le_one_of_availUnique _ hs2 u._id p.date
        omega
    · rw [h0] at hfind1
      refine ⟨availSet p u t1 old, availSet p u t2 (availSet p u t1 old),
        hfind1, ?_, ?_, availSet_availSet p u t1 t2 old, rfl⟩
      · rw [upsert_store_eq p u t2 id2 _ hd,
          find?_updateOneUpsert _ _ _ _ _ hupd2
            (availKeyMatches_availInsert p u t2 id2), hfind1]
      · have hge : 1 ≤ countKey (upsert_my_availability p u t2 id2
            (upsert_my_availability p u t1 id1 s).2.1).2.1 u._id p.date := by
          refine countKey_pos_of_find? _ _ _ (availSet p u t2 (availSet p u t1 old)) ?_
          rw [upsert_store_eq p u t2 id2 _ hd,
            find?_updateOneUpsert _ _ _ _ _ hupd2
              (availKeyMatches_availInsert p u t2 id2), hfind1]
        have hle := countKey_le_one_of_availUnique _ hs2 u._id p.date
        omega

theorem upsert_overwrite_idempotence_witness :
    countKey (upsert_my_availability payloadNov guardA 6 "a2"
        (upsert_my_availability payloadNov guardA 5 "a1" []).2.1).2.1
      guardA._id payloadNov.date = 1 := by
  obtain ⟨d1, d2, h1, h2, h3, h4, h5⟩ :=
    (upsert_overwrite_idempotence payloadNov guardA 5 6 "a1" "a2" []
      (by decide) List.Pairwise.nil).2
  exact h3

/-- Claim C9: a malformed date on an availability submission, and a
malformed month on the guard's or the admin's month listing, are each
rejected with their specific validation error before any store access
(empty access trace) and leave the store unchanged. -/
theorem validation_rejected_before_store (p : AvailabilityIn) (u : UserDoc)
    (now : Nat) (newId : String) (s : List AvailDoc) (m : String)
    (hd : dateParses p.date = false) (hm : monthOk m = false) :
    upsert_my_availability p u now newId s =
      (.error (.http 400 "date must be in YYYY-MM-DD format"), s, []) ∧
    get_my_availability_for_month m u s =
      (.error (.http 400 "month must be in YYYY-MM format"), s, []) ∧
    admin_get_all_for_month m s =
      (.error (.http 400 "month must be in YYYY-MM format"), s, []) := by
  refine ⟨?_, ?_, ?_⟩
  · simp only [upsert_my_availability, hd, Bool.false_eq_true, if_false]
  · simp only [get_my_availability_for_month, hm, Bool.false_eq_true, if_false]
  · simp only [admin_get_all_for_month, hm, Bool.false_eq_true, if_false]

theorem validation_rejected_before_store_witness :
    upsert_my_availability payloadBadDate guardA 0 "a9" [availNov] =
      (.error (.http 400 "date must be in YYYY-MM-DD format"), [availNov], []) ∧
    get_my_availability_for_month "2025-13" guardA [availNov] =
      (.error (.http 400 "month must be in YYYY-MM format"), [availNov], []) ∧
    admin_get_all_for_month "2025-13" [availNov] =
      (.error (.http 400 "month must be in YYYY-MM format"), [availNov], []) :=
  validation_rejected_before_store payloadBadDate guardA 0 "a9" [availNov]
    "2025-13" (by decide) (by decide)

-- ---------------------------------------------------------------------
-- Claim C3: admin guard-availability lookup
-- ---------------------------------------------------------------------

theorem resolve_eq_none (users : List UserDoc) (g : String)
    (hname : users.find? (fun u => u.name == g) = none)
    (hrest : strContainsChar g '@' = false ∨
      users.find? (fun u => u.email == pyLower g) = none) :
    resolveByNameThenEmail users g = none := by
  unfold resolveByNameThenEmail
  rw [hname]
  rcases hrest with hat | hemail
  · simp [hat]
  · by_cases hat : strContainsChar g '@' = true
    · simp [hat, hemail]
    · simp [hat]

theorem admin_get_for_guard_of_resolved (guard : String) (month : Option String)
    (users : List UserDoc) (avail : List AvailDoc) (u : UserDoc)
    (hg : ¬ pyStrip guard = "")
    (hres : resolveByNameThenEmail users (pyStrip guard) = some u)
    (hm : monthPasses month) :
    ∃ l : List AvailDoc, admin_get_for_guard guard month users avail =
        .ok (l.map (fun d => serialize_availability d (some u))) ∧
      l.Pairwise availDateLe ∧
      l.Perm (avail.filter (fun a => a.user_id == u._id && monthFilter month a)) := by
  cases month with
  | none =>
    refine ⟨List.insertionSort availDateLe
      (avail.filter (fun a => a.user_id == u._id)), ?_, ?_, ?_⟩
    · simp only [admin_get_for_guard, if_neg hg, hres]
    · exact List.sorted_insertionSort availDateLe _
    · have hperm := List.perm_insertionSort availDateLe
        (avail.filter (fun a => a.user_id == u._id))
      simpa [monthFilter] using hperm
  | some m =>
    have hm' : monthOk m = true := hm
    refine ⟨List.insertionSort availDateLe
      (avail.filter (fun a => a.user_id == u._id && strStartsWith m a.date)), ?_, ?_, ?_⟩
    · simp only [admin_get_for_guard, if_neg hg, hres, hm', if_true]
    · exact List.sorted_insertionSort availDateLe _
    · have hperm := List.perm_insertionSort availDateLe
        (avail.filter (fun a => a.user_id == u._id && strStartsWith m a.date))
      simpa [monthFilter] using hperm

/-- Claim C3 (amended): for a guard reference whose whitespace-stripped
form is non-empty, resolution first tries an exact name match on the
stripped reference; only if that fails and the stripped reference
contains "@" does it try an exact email match against its lowercased
form; no match yields an empty list with a success outcome (even when
the month filter is malformed); a match yields that user's availability
records, month-filtered when a well-formed month is supplied, ordered
by date ascending.  (References stripping to the empty string are
instead rejected with a 400 validation error — see the
counterexample.) -/
theorem admin_guard_lookup (guard : String) (month : Option String)
    (users : List UserDoc) (avail : List AvailDoc)
    (hg : ¬ pyStrip guard = "") :
    ((users.find? (fun u => u.name == pyStrip guard) = none ∧
       (strContainsChar (pyStrip guard) '@' = false ∨
         users.find? (fun u => u.email == pyLower (pyStrip guard)) = none)) →
      admin_get_for_guard guard month users avail = .ok []) ∧
    (∀ u, users.find? (fun v => v.name == pyStrip guard) = some u →
      monthPasses month →
      ∃ l : List AvailDoc, admin_get_for_guard guard month users avail =
          .ok (l.map (fun d => serialize_availability d (some u))) ∧
        l.Pairwise availDateLe ∧
        l.Perm (avail.filter (fun a => a.user_id == u._id && monthFilter month a))) ∧
    (∀ u, users.find? (fun v => v.name == pyStrip guard) = none →
      strContainsChar (pyStrip guard) '@' = true →
      users.find? (fun v => v.email == pyLower (pyStrip guard)) = some u →
      monthPasses month →
      ∃ l : List AvailDoc, admin_get_for_guard guard month users avail =
          .ok (l.map (fun d => serialize_availability d (some u))) ∧
        l.Pairwise availDateLe ∧
        l.Perm (avail.filter (fun a => a.user_id == u._id && monthFilter month a))) := by
  refine ⟨?_, ?_, ?_⟩
  · intro ⟨hname, hrest⟩
    have hres := resolve_eq_none users (pyStrip guard) hname hrest
    simp only [admin_get_for_guard, if_neg hg, hres]
  · intro u hname hm
    have hres : resolveByNameThenEmail users (pyStrip guard) = some u := by
      unfold resolveByNameThenEmail
      rw [hname]
    exact admin_get_for_guard_of_resolved guard month users avail u hg hres hm
  · intro u hname hat hemail hm
    have hres : resolveByNameThenEmail users (pyStrip guard) = some u := by
      unfold resolveByNameThenEmail
      rw [hname, if_pos hat, hemail]
    exact admin_get_for_guard_of_resolved guard month users avail u hg hres hm

theorem admin_guard_lookup_witness :
    ∃ l : List AvailDoc, admin_get_for_guard "Jane Doe" none [guardA] [availNov, availJan] =
        .ok (l.map (fun d => serialize_availability d (some guardA))) ∧
      l.Pairwise availDateLe ∧
      l.Perm ([availNov, availJan].filter
        (fun a => a.user_id == guardA._id && monthFilter none a)) :=
  (admin_guard_lookup "Jane Doe" none [guardA] [availNov, availJan]
    (by decide)).2.1 guardA (by decide) trivial

/-- Claim C3, counterexample to the statement as written: for the
whitespace-only reference " " no user matches (the user store is
empty), so the claim requires an empty list with a success outcome,
but the code rejects the request with a 400 validation error. -/
theorem admin_guard_lookup_blank_counterexample :
    admin_get_for_guard " " none [] [] =
      .error (.http 400 "guard parameter is required") ∧
    ([] : List UserDoc).find? (fun u => u.name == " ") = none ∧
    admin_get_for_guard " " none [] [] ≠ .ok [] := by
  refine ⟨rfl, rfl, fun h => ?_⟩
  rw [show admin_get_for_guard " " none [] [] =
    .error (.http 400 "guard parameter is required") from rfl] at h
  cases h

-- ---------------------------------------------------------------------
-- Claim C4: schedule creation and the guard's schedule listing
-- ---------------------------------------------------------------------

/-- Claim C4 (amended): creating a schedule requires a non-empty shift
list and a guard reference that is non-empty after whitespace
stripping (a whitespace-only reference is rejected — see the
counterexample), and then always succeeds; when no user matches the
reference the schedule is stored with `guard_id = none`; `guard_id` is
never re-derived afterwards (no operation rewrites schedule documents
and the listing is read-only); list-own-schedules is a single
disjunctive query matching `guard_id` OR guard name OR guard email
over the one schedules collection, returning each stored matching
document once — so a guard who registers later under the stored name
still receives the schedule via the name clause. -/
theorem schedule_create_and_listing (payload : SchedulePayload)
    (admin : UserDoc) (users : List UserDoc) (now : Nat) (newId : String)
    (ss : List ScheduleDoc) :
    (pyStrip payload.guard = "" →
      create_schedule payload admin users now newId ss =
        (.error (.http 400 "Guard is required"), ss)) ∧
    (¬ pyStrip payload.guard = "" → payload.shifts = [] →
      create_schedule payload admin users now newId ss =
        (.error (.http 400 "At least one shift is required"), ss)) ∧
    (¬ pyStrip payload.guard = "" → ¬ payload.shifts = [] →
      ∃ doc : ScheduleDoc,
        create_schedule payload admin users now newId ss =
          (.ok (serialize_schedule doc), ss ++ [doc]) ∧
        doc.guard = pyStrip payload.guard ∧
        ((∀ v ∈ users, ¬ v.name = pyStrip payload.guard ∧
            ¬ v.email = pyLower (pyStrip payload.guard)) →
          doc.guard_id = none)) ∧
    (∀ u : UserDoc, ∀ store : List ScheduleDoc,
      ∃ l : List ScheduleDoc,
        get_my_schedules u store = l.map serialize_schedule ∧
        l.Perm (store.filter
          (schedMatches u._id (pyStrip u.name) (pyStrip (pyLower u.email)))) ∧
        (store.Nodup → ∀ doc ∈ store,
          schedMatches u._id (pyStrip u.name) (pyStrip (pyLower u.email)) doc =
            true → l.count doc = 1)) ∧
    (∀ u : UserDoc, ∀ store : List ScheduleDoc, ∀ doc : ScheduleDoc,
      doc ∈ store → ¬ pyStrip u.name = "" → doc.guard = pyStrip u.name →
      serialize_schedule doc ∈ get_my_schedules u store) := by
  refine ⟨?_, ?_, ?_, ?_, ?_⟩
  · intro h
    simp only [create_schedule]
    rw [if_pos h]
  · intro h1 h2
    simp only [create_schedule]
    rw [if_neg h1, h2]
    rfl
  · intro h1 h2
    have hne : payload.shifts.isEmpty = false := by
      cases hsh : payload.shifts with
      | nil => exact absurd hsh h2
      | cons a rest => rfl
    refine ⟨{ _id := newId, guard := pyStrip payload.guard,
              guard_id := (resolveByNameThenEmail users
                (pyStrip payload.guard)).map (fun u => u._id),
              note := pyStrip payload.note,
              shifts := payload.shifts.map
                (fun s => ShiftEntry.mk s.date s.start_time s.end_time),
              created_at := now, created_by_admin_id := admin._id },
      ?_, rfl, ?_⟩
    · simp only [create_schedule]
      rw [if_neg h1]
      rw [if_neg (by rw [hne]; exact Bool.false_ne_true)]
    · intro hnone
      have hname : users.find? (fun v => v.name == pyStrip payload.guard) = none :=
        List.find?_eq_none.mpr (fun v hv => by simp [(hnone v hv).1])
      have hemail : users.find?
          (fun v => v.email == pyLower (pyStrip payload.guard)) = none :=
        List.find?_eq_none.mpr (fun v hv => by simp [(hnone v hv).2])
      have hres := resolve_eq_none users (pyStrip payload.guard) hname (Or.inr hemail)
      show (resolveByNameThenEmail users (pyStrip payload.guard)).map
        (fun u => u._id) = none
      rw [hres]
      rfl
  · intro u store
    refine ⟨List.insertionSort (fun a b => schedCreatedDescB a b = true)
      (store.filter (schedMatches u._id (pyStrip u.name)
        (pyStrip (pyLower u.email)))), rfl, ?_, ?_⟩
    · exact List.perm_insertionSort _ _
    · intro hnd doc hmem hmatch
      have hperm := List.perm_insertionSort
        (fun a b => schedCreatedDescB a b = true)
        (store.filter (schedMatches u._id (pyStrip u.name)
          (pyStrip (pyLower u.email))))
      rw [hperm.count_eq doc]
      exact List.count_eq_one_of_mem (hnd.filter _)
        (List.mem_filter.mpr ⟨hmem, hmatch⟩)
  · intro u store doc hmem hname hguard
    have hmatch : schedMatches u._id (pyStrip u.name)
        (pyStrip (pyLower u.email)) doc = true := by
      simp only [schedMatches, Bool.or_eq_true, Bool.and_eq_true, bne_iff_ne,
        beq_iff_eq]
      exact Or.inl (Or.inr ⟨hname, hguard⟩)
    have hperm := List.perm_insertionSort
      (fun a b => schedCreatedDescB a b = true)
      (store.filter (schedMatches u._id (pyStrip u.name)
        (pyStrip (pyLower u.email))))
    have hdocl : doc ∈ List.insertionSort
        (fun a b => schedCreatedDescB a b = true)
        (store.filter (schedMatches u._id (pyStrip u.name)
          (pyStrip (pyLower u.email)))) :=
      hperm.mem_iff.mpr (List.mem_filter.mpr ⟨hmem, hmatch⟩)
    simp only [get_my_schedules]
    exact List.mem_map_of_mem serialize_schedule hdocl

theorem schedule_create_and_listing_witness :
    ∃ doc : ScheduleDoc,
      create_schedule schedPayloadPapi adminC [] 7 "s1" [] =
        (.ok (serialize_schedule doc), [] ++ [doc]) ∧
      doc.guard = pyStrip schedPayloadPapi.guard ∧
      ((∀ v ∈ ([] : List UserDoc), ¬ v.name = pyStrip schedPayloadPapi.guard ∧
          ¬ v.email = pyLower (pyStrip schedPayloadPapi.guard)) →
        doc.guard_id = none) :=
  (schedule_create_and_listing schedPayloadPapi adminC [] 7 "s1" []).2.2.1
    (by decide) (by decide)

/-- Claim C4, counterexample to the statement as written: the
whitespace-only guard reference " " is a non-empty string, and the
shift list is non-empty, yet creation fails with a 400 validation
error instead of succeeding. -/
theorem schedule_create_blank_counterexample :
    schedPayloadBlank.guard ≠ "" ∧ schedPayloadBlank.shifts ≠ [] ∧
    create_schedule schedPayloadBlank adminC [] 0 "s1" [] =
      (.error (.http 400 "Guard is required"), []) :=
  ⟨by decide, by decide, rfl⟩

-- ---------------------------------------------------------------------
-- Claim C5: admin set-paid is a targeted update
-- ---------------------------------------------------------------------

theorem updateFirstPaid_of_not_mem (oid : String) (p : Bool) (now : Nat)
    (s : List ShiftDoc) (h : ∀ sh ∈ s, sh._id ≠ oid) :
    updateFirstPaid oid p now s = (s, 0) := by
  induction s with
  | nil => rfl
  | cons a rest ih =>
    have ha : ¬ (a._id == oid) = true := by
      simp [h a (List.mem_cons_self a rest)]
    simp only [updateFirstPaid, if_neg ha]
    rw [ih (fun sh hsh => h sh (List.mem_cons_of_mem a hsh))]

theorem updateFirstPaid_eq_map (oid : String) (p : Bool) (now : Nat)
    (s : List ShiftDoc) (hnd : (s.map (fun sh => sh._id)).Nodup)
    (sh : ShiftDoc) (hmem : sh ∈ s) (hid : sh._id = oid) :
    updateFirstPaid oid p now s =
      (s.map (fun x => if x._id = oid then
        { x with paid := p, updated_at := some now } else x), 1) := by
  induction s with
  | nil => cases hmem
  | cons a rest ih =>
    rw [List.map_cons, List.nodup_cons] at hnd
    rcases List.mem_cons.mp hmem with heq | hmem'
    · subst heq
      have ha : (sh._id == oid) = true := by simp [hid]
      have hrest : ∀ x ∈ rest, x._id ≠ oid := by
        intro x hx heq2
        exact hnd.1 (hid ▸ heq2 ▸ List.mem_map_of_mem _ hx)
      simp only [updateFirstPaid, if_pos ha, List.map_cons, if_pos hid]
      have hmap : rest.map (fun x => if x._id = oid then
          { x with paid := p, updated_at := some now } else x) = rest := by
        clear ih hmem ha hnd
        induction rest with
        | nil => rfl
        | cons b rs ihr =>
          rw [List.map_cons, if_neg (hrest b (List.mem_cons_self b rs)),
            ihr (fun x hx => hrest x (List.mem_cons_of_mem b hx))]
      rw [hmap]
    · have ha : a._id ≠ oid := by
        intro heq
        exact hnd.1 (heq ▸ (hid ▸ List.mem_map_of_mem _ hmem'))
      have ha' : ¬ (a._id == oid) = true := by simp [ha]
      simp only [updateFirstPaid, if_neg ha', List.map_cons, if_neg ha,
        ih hnd.2 hmem']

theorem find?_map_setpaid (oid : String) (p : Bool) (now : Nat)
    (s : List ShiftDoc) (hnd : (s.map (fun sh => sh._id)).Nodup)
    (sh : ShiftDoc) (hmem : sh ∈ s) (hid : sh._id = oid) :
    (s.map (fun x => if x._id = oid then
        { x with paid := p, updated_at := some now } else x)).find?
      (fun x => x._id == oid) =
      some { sh with paid := p, updated_at := some now } := by
  induction s with
  | nil => cases hmem
  | cons a rest ih =>
    rw [List.map_cons, List.nodup_cons] at hnd
    rcases List.mem_cons.mp hmem with heq | hmem'
    · subst heq
      rw [List.map_cons, if_pos hid]
      exact List.find?_cons_of_pos _ (by simp [hid])
    · have ha : a._id ≠ oid := by
        intro heq
        exact hnd.1 (heq ▸ (hid ▸ List.mem_map_of_mem _ hmem'))
      rw [List.map_cons, if_neg ha]
      rw [List.find?_cons_of_neg _ (by simp [ha])]
      exact ih hnd.2 hmem'

/-- Claim C5 (amended): for every well-formed (valid-ObjectId) shift
identifier, the admin set-paid operation returns the not-found error
exactly when no stored shift has that identifier (matched count zero),
leaving the store unchanged; otherwise it sets `paid` to the submitted
value and `updated_at` to the current time on the matched shift while
leaving its every other field (`user_id`, `date`, `venue`,
`start_time`, `end_time`, `total_hours`, `notes`, `created_at`) and
every other shift unchanged.  (A syntactically invalid identifier is
instead rejected with a 400 validation error before the lookup — see
the counterexample.) -/
theorem set_paid_targeted_update (shift_id : String) (p : Bool) (now : Nat)
    (shifts : List ShiftDoc) (hvalid : isValidObjectId shift_id = true)
    (hnd : (shifts.map (fun sh => sh._id)).Nodup) :
    ((∀ sh ∈ shifts, sh._id ≠ shift_id) →
      set_shift_paid shift_id p now shifts =
        (.error (.http 404 "Shift not found"), shifts)) ∧
    (∀ sh ∈ shifts, sh._id = shift_id →
      set_shift_paid shift_id p now shifts =
        (.ok (serialize_shift (some { sh with paid := p, updated_at := some now })),
         shifts.map (fun x => if x._id = shift_id
           then { x with paid := p, updated_at := some now } else x))) := by
  constructor
  · intro h
    simp only [set_shift_paid, if_pos hvalid]
    rw [updateFirstPaid_of_not_mem _ _ _ _ h]
    rfl
  · intro sh hmem hid
    simp only [set_shift_paid, if_pos hvalid]
    rw [updateFirstPaid_eq_map shift_id p now shifts hnd sh hmem hid]
    rw [if_neg (by omega : ¬ (1 : Nat) = 0)]
    rw [find?_map_setpaid shift_id p now shifts hnd sh hmem hid]

theorem set_paid_targeted_update_witness :
    set_shift_paid "dddddddddddddddddddddddd" true 9 [shiftA] =
      (.ok (serialize_shift (some { shiftA with paid := true, updated_at := some 9 })),
       [shiftA].map (fun x => if x._id = "dddddddddddddddddddddddd"
         then { x with paid := true, updated_at := some 9 } else x)) :=
  (set_paid_targeted_update "dddddddddddddddddddddddd" true 9 [shiftA]
    (by decide) (by decide)).2 shiftA (List.mem_cons_self _ _) rfl

/-- Claim C5, counterexample to the statement as written: for the
identifier "nope" no shift exists in the (empty) store, so the claim
requires the not-found error, but the code rejects the malformed
ObjectId with a 400 "Invalid shift id" validation error instead. -/
theorem set_paid_invalid_id_counterexample :
    set_shift_paid "nope" true 0 [] = (.error (.http 400 "Invalid shift id"), []) ∧
    set_shift_paid "nope" true 0 [] ≠
      (.error (.http 404 "Shift not found"), []) := by
  refine ⟨rfl, fun h => ?_⟩
  rw [show set_shift_paid "nope" true 0 [] =
    (.error (.http 400 "Invalid shift id"), ([] : List ShiftDoc)) from rfl] at h
  simp at h

-- ---------------------------------------------------------------------
-- Claim C6: delete is owner-or-admin
-- ---------------------------------------------------------------------

theorem delete_shift_allowed (user : UserDoc) (shifts : List ShiftDoc)
    (sh : ShiftDoc) (hv : isValidObjectId sh._id = true)
    (hsh : shifts.find? (fun x => x._id == sh._id) = some sh)
    (hallow : user.role = "admin" ∨ sh.user_id = user._id) :
    delete_shift sh._id user shifts =
      (.ok (.obj [("status", .str "deleted"), ("id", .str sh._id)]),
       deleteOneShift sh._id shifts) := by
  simp only [delete_shift, if_pos hv, hsh]
  have hcond : (!(user.role == "admin") && (sh.user_id != user._id)) = false := by
    rcases hallow with h | h <;> simp [h]
  simp [hcond]

theorem delete_shift_forbidden (user : UserDoc) (shifts : List ShiftDoc)
    (sh : ShiftDoc) (hv : isValidObjectId sh._id = true)
    (hsh : shifts.find? (fun x => x._id == sh._id) = some sh)
    (hno : ¬ (user.role = "admin" ∨ sh.user_id = user._id)) :
    delete_shift sh._id user shifts = (.error (.http 403 "Not allowed"), shifts) := by
  push_neg at hno
  simp only [delete_shift, if_pos hv, hsh]
  have hcond : (!(user.role == "admin") && (sh.user_id != user._id)) = true := by
    simp [hno.1, hno.2]
  simp [hcond]

theorem delete_availability_allowed (user : UserDoc) (avail : List AvailDoc)
    (a : AvailDoc) (ha : avail.find? (fun x => x._id == a._id) = some a)
    (hallow : user.role = "admin" ∨ a.user_id = user._id) :
    delete_availability a._id user avail =
      (.ok (.obj [("status", .str "deleted"), ("id", .str a._id)]),
       deleteOneAvail a._id avail) := by
  simp only [delete_availability, ha]
  have hcond : ((user.role == "admin") || (a.user_id == user._id)) = true := by
    rcases hallow with h | h <;> simp [h]
  simp [hcond]

theorem delete_availability_forbidden (user : UserDoc) (avail : List AvailDoc)
    (a : AvailDoc) (ha : avail.find? (fun x => x._id == a._id) = some a)
    (hno : ¬ (user.role = "admin" ∨ a.user_id = user._id)) :
    delete_availability a._id user avail =
      (.error (.http 403 "Not allowed"), avail) := by
  push_neg at hno
  simp only [delete_availability, ha]
  have hcond : ((user.role == "admin") || (a.user_id == user._id)) = false := by
    simp [hno.1, hno.2]
  simp [hcond]

/-- Claim C6: for every stored shift or availability record and every
authenticated caller, deletion is allowed iff the caller's role is
admin or the caller's id equals the record's stored owner id; a
non-admin non-owner is rejected with 403 and the store is unchanged.
The availability half is settled against the spec-modelled
`delete_availability` (no delete route exists in
src/routers/availability.py). -/
theorem delete_owner_or_admin (user : UserDoc)
    (shifts : List ShiftDoc) (sh : ShiftDoc)
    (avail : List AvailDoc) (a : AvailDoc)
    (hv : isValidObjectId sh._id = true)
    (hsh : shifts.find? (fun x => x._id == sh._id) = some sh)
    (ha : avail.find? (fun x => x._id == a._id) = some a) :
    ((delete_shift sh._id user shifts).1.isOk = true ↔
      (user.role = "admin" ∨ sh.user_id = user._id)) ∧
    (¬ (user.role = "admin" ∨ sh.user_id = user._id) →
      delete_shift sh._id user shifts =
        (.error (.http 403 "Not allowed"), shifts)) ∧
    ((delete_availability a._id user avail).1.isOk = true ↔
      (user.role = "admin" ∨ a.user_id = user._id)) ∧
    (¬ (user.role = "admin" ∨ a.user_id = user._id) →
      delete_availability a._id user avail =
        (.error (.http 403 "Not allowed"), avail)) := by
  refine ⟨?_, ?_, ?_, ?_⟩
  · constructor
    · intro hok
      by_cases hallow : user.role = "admin" ∨ sh.user_id = user._id
      · exact hallow
      · rw [delete_shift_forbidden user shifts sh hv hsh hallow] at hok
        simp [Except.isOk, Except.toBool] at hok
    · intro hallow
      rw [delete_shift_allowed user shifts sh hv hsh hallow]
      rfl
  · exact delete_shift_forbidden user shifts sh hv hsh
  · constructor
    · intro hok
      by_cases hallow : user.role = "admin" ∨ a.user_id = user._id
      · exact hallow
      · rw [delete_availability_forbidden user avail a ha hallow] at hok
        simp [Except.isOk, Except.toBool] at hok
    · intro hallow
      rw [delete_availability_allowed user avail a ha hallow]
      rfl
  · exact delete_availability_forbidden user avail a ha

theorem delete_owner_or_admin_witness :
    delete_shift shiftA._id guardB [shiftA] =
      (.error (.http 403 "Not allowed"), [shiftA]) ∧
    delete_availability availOwnedA._id guardB [availOwnedA] =
      (.error (.http 403 "Not allowed"), [availOwnedA]) := by
  have h := delete_owner_or_admin guardB [shiftA] shiftA [availOwnedA] availOwnedA
    (by decide) rfl rfl
  exact ⟨h.2.1 (by decide), h.2.2.2 (by decide)⟩

-- ---------------------------------------------------------------------
-- Claim C7: uniformity of authentication failures
-- ---------------------------------------------------------------------

/-- Claim C7 (amended): every failing authentication attempt yields an
Unauthorized (401) outcome; token-decode failures (malformed, expired,
signature mismatch all decode to nothing) and missing-subject payloads
produce the identical 401 "Invalid token" response, but a decodable
token whose well-formed subject resolves to no user produces 401 with
the different detail "User not found" — the two classes share the
status code yet are distinguishable through response content (see the
counterexample). -/
theorem auth_failure_uniformity (users : List UserDoc)
    (d : Option (List (String × String))) :
    ((d = none ∨ ∃ pl, d = some pl ∧ pl.lookup "sub" = none) →
      get_current_user d users = .unauthorized "Invalid token") ∧
    (∀ pl sub, d = some pl → pl.lookup "sub" = some sub →
      isValidObjectId sub = true →
      users.find? (fun u => u._id == sub) = none →
      get_current_user d users = .unauthorized "User not found") ∧
    (∀ detail, authStatus (.unauthorized detail) = 401) := by
  refine ⟨?_, ?_, fun detail => rfl⟩
  · rintro (rfl | ⟨pl, rfl, hsub⟩)
    · rfl
    · simp only [get_current_user, hsub]
  · rintro pl sub rfl hsub hvalid hfind
    simp only [get_current_user, hsub, if_pos hvalid, hfind]

theorem auth_failure_uniformity_witness :
    get_current_user none [] = .unauthorized "Invalid token" ∧
    get_current_user (some [("sub", "eeeeeeeeeeeeeeeeeeeeeeee")]) [guardA] =
      .unauthorized "User not found" :=
  ⟨(auth_failure_uniformity [] none).1 (Or.inl rfl),
   (auth_failure_uniformity [guardA]
      (some [("sub", "eeeeeeeeeeeeeeeeeeeeeeee")])).2.1
     [("sub", "eeeeeeeeeeeeeeeeeeeeeeee")] "eeeeeeeeeeeeeeeeeeeeeeee"
     rfl rfl (by decide) rfl⟩

/-- Claim C7, counterexample to the statement as written: a
decode-failure and an unresolvable subject both fail, but their
response contents differ ("Invalid token" vs "User not found"), so the
two failures are distinguishable through response content. -/
theorem auth_failure_distinguishable_counterexample :
    get_current_user none [] = .unauthorized "Invalid token" ∧
    get_current_user (some [("sub", "eeeeeeeeeeeeeeeeeeeeeeee")]) [] =
      .unauthorized "User not found" ∧
    ("Invalid token" : String) ≠ "User not found" :=
  ⟨rfl, rfl, by decide⟩

-- ---------------------------------------------------------------------
-- Claim C10: non-zero-padded months pass validation and the prefix
-- filter then spans several calendar months
-- ---------------------------------------------------------------------

/-- Claim C10: month validation accepts exactly the strings `s` for
which `s ++ "-01"` parses as a calendar date, which includes the
non-zero-padded "2025-1"; the listings' prefix filter then matches
exactly the records whose date string starts with that input, so the
query for month "2025-1" returns the records dated 2025-10-06,
2025-11-07 and 2025-12-08 alongside the January record stored as
"2025-1-05" — not only January records — while the records whose
date strings are "2025-02-05" and the zero-padded "2025-01-05" do not
start with "2025-1" and are excluded. -/
theorem month_nonpadded_prefix_filter :
    monthOk "2025-1" = dateParses ("2025-1" ++ "-01") ∧
    monthOk "2025-1" = true ∧
    dateParses "2025-1-05" = true ∧
    strStartsWith "2025-1" "2025-10-06" = true ∧
    strStartsWith "2025-1" "2025-02-05" = false ∧
    (get_my_availability_for_month "2025-1" guardA monthStore).1 =
      .ok ([availJanNP, availOct, availNov, availDec].map
        (fun d => serialize_availability d (some guardA))) ∧
    (admin_get_all_for_month "2025-1" monthStore).1 =
      .ok ([availJanNP, availOct, availNov, availDec].map
        (fun d => serialize_availability d none)) := by
  refine ⟨rfl, by decide, by decide, by decide, by decide, ?_, ?_⟩ <;> rfl

end OpsGuard
